import Mathlib

/-!
# Verification of the BirthdayDealsFinder search engine

A shallow embedding of `birthday_deals_finder.py`.  The external
collaborators (Google geocoding, place search, and the geodesic distance
library) are modelled as components of an `Env` record; fallible network
calls return `Except String _` where `.error` covers both raised
exceptions and malformed responses (a malformed candidate raises a
`KeyError` inside the same `try` block, so the observable outcome is the
error branch).  Latitudes, longitudes and distances are rationals.
Diagnostic `print` calls are modelled as a returned list of log lines.
The concurrent method is modelled by the completion order of its tasks:
a permutation of the catalog in which the per-store results are
collected before the final sort.
-/

namespace BirthdayDeals

/-- A coordinate pair (latitude, longitude). -/
abbrev Coords := ℚ × ℚ

/-- A place returned by the place-search collaborator: coordinates are
mandatory (`place['geometry']['location']`), the remaining fields are
optional dictionary entries accessed with `.get`. -/
structure Candidate where
  lat : ℚ
  lng : ℚ
  formatted_address : Option String
  place_id : Option String
  rating : Option ℚ
  user_ratings_total : Option ℕ
deriving DecidableEq

/-- A value that is either a number or the string sentinel `'N/A'`,
as stored in the `rating` / `user_ratings_total` fields of a result
dictionary by `place.get(..., 'N/A')`. -/
inductive RVal where
  | num (q : ℚ)
  | na
deriving DecidableEq

/-- One entry of the result list built by `_search_single_store` /
`find_stores_within_radius` (a Python dict with seven keys). -/
structure Match where
  store_name : String
  deal : String
  address : String
  distance_miles : ℚ
  place_id : String
  rating : RVal
  user_ratings_total : RVal
deriving DecidableEq

/-- The external collaborators: geocoder, place search, and the
`geopy.distance.geodesic(..).miles` function. -/
structure Env where
  geocode : String → Except String (List Coords)
  places : String → Coords → ℚ → Except String (List Candidate)
  geodesic : Coords → Coords → ℚ

/-- Python's `round(x, 2)`: the distance rounded to two decimals. -/
def round2 (q : ℚ) : ℚ := (round (q * 100) : ℤ) / 100

/-- The result dictionary built for an accepted candidate
(`birthday_deals_finder.py` lines 100–108 / 228–236). -/
def mkMatch (store_name deal : String) (p : Candidate) (d : ℚ) : Match where
  store_name := store_name
  deal := deal
  address := p.formatted_address.getD "Address not available"
  distance_miles := round2 d
  place_id := p.place_id.getD ""
  rating := match p.rating with
    | some q => RVal.num q
    | none => RVal.na
  user_ratings_total := match p.user_ratings_total with
    | some n => RVal.num (n : ℚ)
    | none => RVal.na

/-- The `for place in places_result.get('results', [])` loop: recompute
the geodesic distance of each candidate in adapter order, accept the
first one within `radius_miles` and `break`. -/
def scanCandidates (env : Env) (store_name deal : String) (origin : Coords)
    (radius_miles : ℚ) : List Candidate → List Match
  | [] => []
  | p :: rest =>
    if env.geodesic origin (p.lat, p.lng) ≤ radius_miles then
      [mkMatch store_name deal p (env.geodesic origin (p.lat, p.lng))]
    else
      scanCandidates env store_name deal origin radius_miles rest

/-- `_search_single_store`: one place-search call wrapped in
`try/except`; an adapter failure yields no matches and one diagnostic
line.  Returns (found stores, diagnostics). -/
def search_single_store (env : Env) (store_name deal : String) (origin : Coords)
    (radius_meters radius_miles : ℚ) : List Match × List String :=
  match env.places store_name origin radius_meters with
  | Except.error e => ([], ["Error searching for " ++ store_name ++ ": " ++ e])
  | Except.ok results =>
      (scanCandidates env store_name deal origin radius_miles results, [])

/-- The per-store phase over a list of catalog entries, in the order the
results are collected (catalog iteration order in the sequential method,
task-completion order in the concurrent one). -/
def runBatch (env : Env) (origin : Coords) (radius_meters radius_miles : ℚ) :
    List (String × String) → List Match × List String
  | [] => ([], [])
  | (s, d) :: rest =>
      let one := search_single_store env s d origin radius_meters radius_miles
      let more := runBatch env origin radius_meters radius_miles rest
      (one.1 ++ more.1, one.2 ++ more.2)

/-- The comparison key of `found_stores.sort(key=lambda x: x['distance_miles'])`. -/
def distLE (a b : Match) : Prop := a.distance_miles ≤ b.distance_miles

instance : DecidableRel distLE := fun a b =>
  inferInstanceAs (Decidable (a.distance_miles ≤ b.distance_miles))

/-- Python's stable sort by the distance field.  A stable sort by a key
is unique, so the stable insertion sort is a faithful model of
`list.sort`. -/
def sortByDist (l : List Match) : List Match := List.insertionSort distLE l

/-- `radius_meters = radius_miles * 1609.34`. -/
def milesToMeters (radius_miles : ℚ) : ℚ := radius_miles * (160934 / 100)

/-- `find_stores_within_radius` (sequential): geocode the origin, search
every catalog entry in catalog order, sort by distance.  Returns
(result list, diagnostics). -/
def find_stores_within_radius (env : Env) (catalog : List (String × String))
    (location : String) (radius_miles : ℚ) : List Match × List String :=
  match env.geocode location with
  | Except.error e => ([], ["Error geocoding location: " ++ e])
  | Except.ok [] => ([], ["Error: Could not find location " ++ location])
  | Except.ok (origin :: _) =>
      let b := runBatch env origin (milesToMeters radius_miles) radius_miles catalog
      (sortByDist b.1, b.2)

/-- `find_stores_within_radius_concurrent`: identical to the sequential
method except that the per-store results are collected in task-completion
order (`as_completed`), here the parameter `completion_order`, a
permutation of the catalog.  Returns (result list, diagnostics). -/
def find_stores_within_radius_concurrent (env : Env)
    (completion_order : List (String × String)) (location : String)
    (radius_miles : ℚ) : List Match × List String :=
  match env.geocode location with
  | Except.error e => ([], ["Error geocoding location: " ++ e])
  | Except.ok [] => ([], ["Error: Could not find location " ++ location])
  | Except.ok (origin :: _) =>
      let b := runBatch env origin (milesToMeters radius_miles) radius_miles
        completion_order
      (sortByDist b.1, b.2)

/-- One row of `birthday_deals.csv` as produced by `csv.DictReader`. -/
structure Row where
  store : String
  deal : String

/-- Python's `deals[store_name] = deal` on an insertion-ordered dict
modelled as an association list: an existing key keeps its position and
gets the new value, a new key is appended. -/
def dict_insert (m : List (String × String)) (k v : String) :
    List (String × String) :=
  if k ∈ m.map Prod.fst then
    m.map (fun p => if p.1 = k then (p.1, v) else p)
  else
    m ++ [(k, v)]

/-- `_load_deals_data`: strip both fields of each row and insert into
the dict, in row order. -/
def load_deals_data (rows : List Row) : List (String × String) :=
  rows.foldl (fun m r => dict_insert m r.store.trim r.deal.trim) []

/-- Dict lookup on the association-list model (first matching key). -/
def lookupDeal : List (String × String) → String → Option String
  | [], _ => none
  | (k, v) :: rest, s => if k = s then some v else lookupDeal rest s

/-- Rendering of a rating / review-count value by an f-string. -/
def RVal.render : RVal → String
  | RVal.num q => toString q
  | RVal.na => "N/A"

/-- The lines printed for one store by `print_results`
(lines 265–272): four unconditional lines, a rating line only when
`store['rating'] != 'N/A'`, then a blank line. -/
def renderMatch (i : ℕ) (m : Match) : List String :=
  [toString i ++ ". " ++ m.store_name,
   "   Deal: " ++ m.deal,
   "   Address: " ++ m.address,
   "   Distance: " ++ toString m.distance_miles ++ " miles"]
  ++ (if m.rating ≠ RVal.na then
        ["   Rating: " ++ m.rating.render ++ "/5 (" ++
          m.user_ratings_total.render ++ " reviews)"]
      else [])
  ++ [""]

/-- The numbered per-store section of `print_results`
(`enumerate(stores, 1)`). -/
def renderAll : ℕ → List Match → List String
  | _, [] => []
  | i, m :: rest => renderMatch i m ++ renderAll (i + 1) rest

/-- `print_results`: header, then either the no-results message or the
store count followed by the numbered list. -/
def print_results (stores : List Match) (location : String) (radius : ℚ) :
    List String :=
  ["", "Birthday Deals within " ++ toString radius ++ " miles of " ++ location,
   String.mk (List.replicate 60 (Char.ofNat 61))]
  ++ (if stores = [] then
        ["No stores with birthday deals found in the specified radius."]
      else
        ["Found " ++ toString stores.length ++ " stores with birthday deals:",
         ""] ++ renderAll 1 stores)

end BirthdayDeals

namespace BirthdayDeals

/-! ### Basic lemmas about the candidate scan and the per-store batch -/

theorem mem_scanCandidates {env : Env} {s d : String} {origin : Coords}
    {r : ℚ} : ∀ {cands : List Candidate} {m : Match},
    m ∈ scanCandidates env s d origin r cands →
    ∃ p ∈ cands, env.geodesic origin (p.lat, p.lng) ≤ r ∧
      m = mkMatch s d p (env.geodesic origin (p.lat, p.lng)) := by
  intro cands
  induction cands with
  | nil => intro m h; simp [scanCandidates] at h
  | cons p rest ih =>
    intro m h
    rw [scanCandidates] at h
    by_cases hd : env.geodesic origin (p.lat, p.lng) ≤ r
    · rw [if_pos hd] at h
      rw [List.mem_singleton] at h
      exact ⟨p, List.mem_cons_self p rest, hd, h⟩
    · rw [if_neg hd] at h
      obtain ⟨q, hq, h1, h2⟩ := ih h
      exact ⟨q, List.mem_cons_of_mem p hq, h1, h2⟩

theorem scanCandidates_length_le {env : Env} {s d : String} {origin : Coords}
    {r : ℚ} : ∀ cands : List Candidate,
    (scanCandidates env s d origin r cands).length ≤ 1 := by
  intro cands
  induction cands with
  | nil => simp [scanCandidates]
  | cons p rest ih =>
    rw [scanCandidates]
    by_cases hd : env.geodesic origin (p.lat, p.lng) ≤ r
    · rw [if_pos hd]; simp
    · rw [if_neg hd]; exact ih

theorem mem_search_single_store {env : Env} {s d : String} {origin : Coords}
    {rm r : ℚ} {m : Match}
    (h : m ∈ (search_single_store env s d origin rm r).1) :
    ∃ results, env.places s origin rm = Except.ok results ∧
      m ∈ scanCandidates env s d origin r results := by
  unfold search_single_store at h
  split at h
  · simp at h
  · exact ⟨_, by assumption, h⟩

theorem mem_runBatch {env : Env} {origin : Coords} {rm r : ℚ} :
    ∀ {entries : List (String × String)} {m : Match},
    m ∈ (runBatch env origin rm r entries).1 →
    ∃ s d, (s, d) ∈ entries ∧
      m ∈ (search_single_store env s d origin rm r).1 := by
  intro entries
  induction entries with
  | nil => intro m h; simp [runBatch] at h
  | cons e rest ih =>
    intro m h
    obtain ⟨s, d⟩ := e
    rw [runBatch] at h
    rw [List.mem_append] at h
    rcases h with h | h
    · exact ⟨s, d, List.mem_cons_self _ _, h⟩
    · obtain ⟨s', d', hmem, hm⟩ := ih h
      exact ⟨s', d', List.mem_cons_of_mem _ hmem, hm⟩

/-- Every element of a final (sorted) result list comes from an accepted
candidate of some catalog entry: the places call succeeded, the
candidate's recomputed geodesic distance is within the radius, and the
Match is exactly the record built for that candidate. -/
theorem mem_sorted_batch {env : Env} {origin : Coords} {rm r : ℚ}
    {entries : List (String × String)} {m : Match}
    (h : m ∈ sortByDist (runBatch env origin rm r entries).1) :
    ∃ s d p results, (s, d) ∈ entries ∧
      env.places s origin rm = Except.ok results ∧ p ∈ results ∧
      env.geodesic origin (p.lat, p.lng) ≤ r ∧
      m = mkMatch s d p (env.geodesic origin (p.lat, p.lng)) := by
  rw [sortByDist, List.mem_insertionSort] at h
  obtain ⟨s, d, hmem, hm⟩ := mem_runBatch h
  obtain ⟨results, hp, hscan⟩ := mem_search_single_store hm
  obtain ⟨p, hpmem, hdist, heq⟩ := mem_scanCandidates hscan
  exact ⟨s, d, p, results, hmem, hp, hpmem, hdist, heq⟩

end BirthdayDeals

namespace BirthdayDeals

/-! ### Reduction of the two search methods once geocoding succeeds -/

theorem find_seq_eq_of_geocode_ok (env : Env) (catalog : List (String × String))
    (location : String) (r : ℚ) (origin : Coords) (rest : List Coords)
    (hg : env.geocode location = Except.ok (origin :: rest)) :
    find_stores_within_radius env catalog location r =
      (sortByDist (runBatch env origin (milesToMeters r) r catalog).1,
       (runBatch env origin (milesToMeters r) r catalog).2) := by
  unfold find_stores_within_radius
  rw [hg]

theorem find_conc_eq_of_geocode_ok (env : Env)
    (completion_order : List (String × String)) (location : String) (r : ℚ)
    (origin : Coords) (rest : List Coords)
    (hg : env.geocode location = Except.ok (origin :: rest)) :
    find_stores_within_radius_concurrent env completion_order location r =
      (sortByDist (runBatch env origin (milesToMeters r) r completion_order).1,
       (runBatch env origin (milesToMeters r) r completion_order).2) := by
  unfold find_stores_within_radius_concurrent
  rw [hg]

/-! ### Concrete environment used by the witnesses -/

/-- A candidate with all optional fields present, 1 mile away. -/
def candW : Candidate := ⟨1, 1, some "addr", some "pid", some 4, some 10⟩

/-- A deterministic environment: geocoding always resolves to the
origin (0, 0), the place search always returns `candW`, and the
geodesic distance is always 1 mile. -/
def envW : Env where
  geocode := fun _ => Except.ok [((0 : ℚ), (0 : ℚ))]
  places := fun _ _ _ => Except.ok [candW]
  geodesic := fun _ _ => 1

/-! ### C1 -/

/-- C1: in both execution modes, every Match of the returned result list
comes from a candidate whose true geodesic distance from the origin is
at most the requested radius in miles (whatever bounding radius was sent
to the place-search collaborator), and its stored distance field is that
geodesic distance rounded to two decimals. -/
theorem matches_distance_le_radius (env : Env)
    (catalog completion_order : List (String × String)) (location : String)
    (r : ℚ) (origin : Coords) (rest : List Coords)
    (hg : env.geocode location = Except.ok (origin :: rest)) (m : Match) :
    (m ∈ (find_stores_within_radius env catalog location r).1 →
      ∃ p : Candidate, env.geodesic origin (p.lat, p.lng) ≤ r ∧
        m.distance_miles = round2 (env.geodesic origin (p.lat, p.lng))) ∧
    (m ∈ (find_stores_within_radius_concurrent env completion_order location r).1 →
      ∃ p : Candidate, env.geodesic origin (p.lat, p.lng) ≤ r ∧
        m.distance_miles = round2 (env.geodesic origin (p.lat, p.lng))) := by
  constructor
  · intro h
    rw [find_seq_eq_of_geocode_ok env catalog location r origin rest hg] at h
    obtain ⟨s, d, p, results, _, _, _, hdist, heq⟩ := mem_sorted_batch h
    exact ⟨p, hdist, by rw [heq]; rfl⟩
  · intro h
    rw [find_conc_eq_of_geocode_ok env completion_order location r origin rest hg] at h
    obtain ⟨s, d, p, results, _, _, _, hdist, heq⟩ := mem_sorted_batch h
    exact ⟨p, hdist, by rw [heq]; rfl⟩

/-- Witness for C1 at a concrete input. -/
theorem matches_distance_le_radius_witness :
    ∃ p : Candidate, envW.geodesic ((0 : ℚ), (0 : ℚ)) (p.lat, p.lng) ≤ 5 ∧
      (mkMatch "A" "dA" candW 1).distance_miles =
        round2 (envW.geodesic ((0 : ℚ), (0 : ℚ)) (p.lat, p.lng)) :=
  (matches_distance_le_radius envW [("A", "dA")] [("A", "dA")] "loc" 5
    ((0 : ℚ), (0 : ℚ)) [] rfl (mkMatch "A" "dA" candW 1)).1
    (by with_unfolding_all decide)

/-! ### C10 -/

/-- C10: every Match in a store search's output is built from the
candidate that generated it — a member of the successful place-search
response whose geodesic distance is within the radius and whose rounded
distance is the Match's stored distance — and carries all seven fields,
with fields absent from that candidate filled with the documented
defaults (`'Address not available'`, `''`, and the `'N/A'` sentinel for
rating and rating count). -/
theorem match_fields_defaulted (env : Env) (s d : String) (origin : Coords)
    (rm r : ℚ) (m : Match)
    (h : m ∈ (search_single_store env s d origin rm r).1) :
    ∃ (results : List Candidate) (p : Candidate),
      env.places s origin rm = Except.ok results ∧ p ∈ results ∧
      env.geodesic origin (p.lat, p.lng) ≤ r ∧
      m.store_name = s ∧ m.deal = d ∧
      m.distance_miles = round2 (env.geodesic origin (p.lat, p.lng)) ∧
      (p.formatted_address = none → m.address = "Address not available") ∧
      (∀ a, p.formatted_address = some a → m.address = a) ∧
      (p.place_id = none → m.place_id = "") ∧
      (∀ pid, p.place_id = some pid → m.place_id = pid) ∧
      (p.rating = none → m.rating = RVal.na) ∧
      (∀ q, p.rating = some q → m.rating = RVal.num q) ∧
      (p.user_ratings_total = none → m.user_ratings_total = RVal.na) ∧
      (∀ n, p.user_ratings_total = some n →
        m.user_ratings_total = RVal.num (n : ℚ)) := by
  obtain ⟨results, hp, hscan⟩ := mem_search_single_store h
  obtain ⟨p, hpmem, hdist, heq⟩ := mem_scanCandidates hscan
  subst heq
  refine ⟨results, p, hp, hpmem, hdist, rfl, rfl, rfl, ?_, ?_, ?_, ?_, ?_,
    ?_, ?_, ?_⟩
  · intro ha; simp [mkMatch, ha]
  · intro a ha; simp [mkMatch, ha]
  · intro ha; simp [mkMatch, ha]
  · intro pid ha; simp [mkMatch, ha]
  · intro ha; simp [mkMatch, ha]
  · intro q ha; simp [mkMatch, ha]
  · intro ha; simp [mkMatch, ha]
  · intro n ha; simp [mkMatch, ha]

/-- A candidate with every optional field absent, 1 mile away. -/
def candNone : Candidate := ⟨1, 1, none, none, none, none⟩

/-- An environment whose place search returns only `candNone`. -/
def envW3 : Env where
  geocode := fun _ => Except.ok [((0 : ℚ), (0 : ℚ))]
  places := fun _ _ _ => Except.ok [candNone]
  geodesic := fun _ _ => 1

/-- Witness for C10 at a concrete input whose candidate lacks every
optional field, so all four defaulting branches are exercised. -/
theorem match_fields_defaulted_witness :
    ∃ (results : List Candidate) (p : Candidate),
      envW3.places "A" ((0 : ℚ), (0 : ℚ)) 1 = Except.ok results ∧
      p ∈ results ∧
      envW3.geodesic ((0 : ℚ), (0 : ℚ)) (p.lat, p.lng) ≤ 5 ∧
      (mkMatch "A" "dA" candNone 1).store_name = "A" ∧
      (mkMatch "A" "dA" candNone 1).deal = "dA" ∧
      (mkMatch "A" "dA" candNone 1).distance_miles =
        round2 (envW3.geodesic ((0 : ℚ), (0 : ℚ)) (p.lat, p.lng)) ∧
      (p.formatted_address = none →
        (mkMatch "A" "dA" candNone 1).address = "Address not available") ∧
      (∀ a, p.formatted_address = some a →
        (mkMatch "A" "dA" candNone 1).address = a) ∧
      (p.place_id = none → (mkMatch "A" "dA" candNone 1).place_id = "") ∧
      (∀ pid, p.place_id = some pid →
        (mkMatch "A" "dA" candNone 1).place_id = pid) ∧
      (p.rating = none → (mkMatch "A" "dA" candNone 1).rating = RVal.na) ∧
      (∀ q, p.rating = some q →
        (mkMatch "A" "dA" candNone 1).rating = RVal.num q) ∧
      (p.user_ratings_total = none →
        (mkMatch "A" "dA" candNone 1).user_ratings_total = RVal.na) ∧
      (∀ n, p.user_ratings_total = some n →
        (mkMatch "A" "dA" candNone 1).user_ratings_total = RVal.num (n : ℚ)) :=
  match_fields_defaulted envW3 "A" "dA" ((0 : ℚ), (0 : ℚ)) 1 5
    (mkMatch "A" "dA" candNone 1) (by with_unfolding_all decide)

end BirthdayDeals

namespace BirthdayDeals

/-! ### C4 -/

theorem scanCandidates_eq_nil {env : Env} {s d : String} {origin : Coords}
    {r : ℚ} : ∀ {cands : List Candidate},
    (∀ p ∈ cands, ¬ env.geodesic origin (p.lat, p.lng) ≤ r) →
    scanCandidates env s d origin r cands = [] := by
  intro cands
  induction cands with
  | nil => intro _; rfl
  | cons p rest ih =>
    intro hall
    rw [scanCandidates, if_neg (hall p (List.mem_cons_self p rest))]
    exact ih fun q hq => hall q (List.mem_cons_of_mem p hq)

theorem scanCandidates_first {env : Env} {s d : String} {origin : Coords}
    {r : ℚ} (p : Candidate) (post : List Candidate) :
    ∀ pre : List Candidate,
    (∀ q ∈ pre, ¬ env.geodesic origin (q.lat, q.lng) ≤ r) →
    env.geodesic origin (p.lat, p.lng) ≤ r →
    scanCandidates env s d origin r (pre ++ p :: post) =
      [mkMatch s d p (env.geodesic origin (p.lat, p.lng))] := by
  intro pre
  induction pre with
  | nil =>
    intro _ hp
    rw [List.nil_append, scanCandidates, if_pos hp]
  | cons q rest ih =>
    intro hall hp
    rw [List.cons_append, scanCandidates,
      if_neg (hall q (List.mem_cons_self q rest))]
    exact ih (fun q' hq' => hall q' (List.mem_cons_of_mem q hq')) hp

/-- C4: for one store's search, the Match is the first candidate in the
adapter's result order whose recomputed geodesic distance is within the
radius — candidates after it are irrelevant — and a store with no
qualifying candidate contributes no Match. -/
theorem first_qualifying_candidate_wins (env : Env) (s d : String)
    (origin : Coords) (rm r : ℚ) :
    (∀ cands, env.places s origin rm = Except.ok cands →
      (∀ p ∈ cands, ¬ env.geodesic origin (p.lat, p.lng) ≤ r) →
      (search_single_store env s d origin rm r).1 = []) ∧
    (∀ pre (p : Candidate) post,
      env.places s origin rm = Except.ok (pre ++ p :: post) →
      (∀ q ∈ pre, ¬ env.geodesic origin (q.lat, q.lng) ≤ r) →
      env.geodesic origin (p.lat, p.lng) ≤ r →
      (search_single_store env s d origin rm r).1 =
        [mkMatch s d p (env.geodesic origin (p.lat, p.lng))]) := by
  constructor
  · intro cands hp hall
    unfold search_single_store
    rw [hp]
    exact scanCandidates_eq_nil hall
  · intro pre p post hp hall hin
    unfold search_single_store
    rw [hp]
    exact scanCandidates_first p post pre hall hin

/-- A candidate two miles to the north-east, with no optional fields. -/
def candFar : Candidate := ⟨2, 2, none, none, none, none⟩

/-- An environment whose place search returns a far candidate (10 miles)
before a near one (1 mile). -/
def envW2 : Env where
  geocode := fun _ => Except.ok [((0 : ℚ), (0 : ℚ))]
  places := fun _ _ _ => Except.ok [candFar, candW]
  geodesic := fun _ q => if q = ((2 : ℚ), (2 : ℚ)) then 10 else 1

/-- Witness for C4 at a concrete input: the far first candidate is
rejected and the near second one is accepted. -/
theorem first_qualifying_candidate_wins_witness :
    (search_single_store envW2 "A" "dA" ((0 : ℚ), (0 : ℚ)) 1 5).1 =
      [mkMatch "A" "dA" candW
        (envW2.geodesic ((0 : ℚ), (0 : ℚ)) (candW.lat, candW.lng))] :=
  (first_qualifying_candidate_wins envW2 "A" "dA" ((0 : ℚ), (0 : ℚ)) 1 5).2
    [candFar] candW [] rfl (by with_unfolding_all decide)
    (by with_unfolding_all decide)

/-! ### C5 -/

/-- C5: when geocoding the origin fails (error or no result), both
search methods return an empty result list together with the single
geocoding diagnostic, and no per-store output is produced. -/
theorem geocode_failure_gives_empty (env : Env)
    (catalog completion_order : List (String × String)) (location : String)
    (r : ℚ) :
    (∀ e, env.geocode location = Except.error e →
      find_stores_within_radius env catalog location r =
          ([], ["Error geocoding location: " ++ e]) ∧
      find_stores_within_radius_concurrent env completion_order location r =
          ([], ["Error geocoding location: " ++ e])) ∧
    (env.geocode location = Except.ok [] →
      find_stores_within_radius env catalog location r =
          ([], ["Error: Could not find location " ++ location]) ∧
      find_stores_within_radius_concurrent env completion_order location r =
          ([], ["Error: Could not find location " ++ location])) := by
  constructor
  · intro e hg
    constructor
    · unfold find_stores_within_radius; rw [hg]
    · unfold find_stores_within_radius_concurrent; rw [hg]
  · intro hg
    constructor
    · unfold find_stores_within_radius; rw [hg]
    · unfold find_stores_within_radius_concurrent; rw [hg]

/-- An environment whose geocoder always fails. -/
def envGeoErr : Env where
  geocode := fun _ => Except.error "boom"
  places := fun _ _ _ => Except.ok []
  geodesic := fun _ _ => 0

/-- Witness for C5 at a concrete input. -/
theorem geocode_failure_gives_empty_witness :
    find_stores_within_radius envGeoErr [("A", "dA")] "nowhere" 5 =
        ([], ["Error geocoding location: " ++ "boom"]) ∧
    find_stores_within_radius_concurrent envGeoErr [("A", "dA")] "nowhere" 5 =
        ([], ["Error geocoding location: " ++ "boom"]) :=
  (geocode_failure_gives_empty envGeoErr [("A", "dA")] [("A", "dA")]
    "nowhere" 5).1 "boom" rfl

/-! ### C6 -/

theorem runBatch_append (env : Env) (origin : Coords) (rm r : ℚ)
    (l₁ l₂ : List (String × String)) :
    runBatch env origin rm r (l₁ ++ l₂) =
      ((runBatch env origin rm r l₁).1 ++ (runBatch env origin rm r l₂).1,
       (runBatch env origin rm r l₁).2 ++ (runBatch env origin rm r l₂).2) := by
  induction l₁ with
  | nil => simp [runBatch]
  | cons x rest ih =>
    obtain ⟨s, d⟩ := x
    simp [runBatch, ih, List.append_assoc]

theorem search_single_store_error {env : Env} {s : String} {origin : Coords}
    {rm : ℚ} {e : String} (d : String) (r : ℚ)
    (hp : env.places s origin rm = Except.error e) :
    search_single_store env s d origin rm r =
      ([], ["Error searching for " ++ s ++ ": " ++ e]) := by
  unfold search_single_store
  rw [hp]

/-- C6: a failing place-search call for one store is contained in both
execution modes: the batch result is the same as if that store were
absent from the catalog, and a diagnostic naming the store is reported;
all other stores still appear. -/
theorem single_store_failure_isolated (env : Env)
    (pre post opre opost : List (String × String)) (s d : String)
    (e : String) (location : String) (r : ℚ) (origin : Coords)
    (rest : List Coords)
    (hg : env.geocode location = Except.ok (origin :: rest))
    (hp : env.places s origin (milesToMeters r) = Except.error e) :
    (find_stores_within_radius env (pre ++ (s, d) :: post) location r).1 =
      (find_stores_within_radius env (pre ++ post) location r).1 ∧
    ("Error searching for " ++ s ++ ": " ++ e) ∈
      (find_stores_within_radius env (pre ++ (s, d) :: post) location r).2 ∧
    (find_stores_within_radius_concurrent env (opre ++ (s, d) :: opost)
        location r).1 =
      (find_stores_within_radius_concurrent env (opre ++ opost) location r).1 ∧
    ("Error searching for " ++ s ++ ": " ++ e) ∈
      (find_stores_within_radius_concurrent env (opre ++ (s, d) :: opost)
        location r).2 := by
  have hone := search_single_store_error d r hp
  refine ⟨?_, ?_, ?_, ?_⟩
  · rw [find_seq_eq_of_geocode_ok env (pre ++ (s, d) :: post) location r
      origin rest hg,
      find_seq_eq_of_geocode_ok env (pre ++ post) location r origin rest hg]
    simp [runBatch_append, runBatch, hone]
  · rw [find_seq_eq_of_geocode_ok env (pre ++ (s, d) :: post) location r
      origin rest hg]
    simp [runBatch_append, runBatch, hone]
  · rw [find_conc_eq_of_geocode_ok env (opre ++ (s, d) :: opost) location r
      origin rest hg,
      find_conc_eq_of_geocode_ok env (opre ++ opost) location r origin rest hg]
    simp [runBatch_append, runBatch, hone]
  · rw [find_conc_eq_of_geocode_ok env (opre ++ (s, d) :: opost) location r
      origin rest hg]
    simp [runBatch_append, runBatch, hone]

/-- An environment in which the place search fails for the store `"B"`
and succeeds for everything else. -/
def envFail : Env where
  geocode := fun _ => Except.ok [((0 : ℚ), (0 : ℚ))]
  places := fun s _ _ =>
    if s = "B" then Except.error "boom" else Except.ok [candW]
  geodesic := fun _ _ => 1

/-- Witness for C6 at a concrete input: store `"B"` fails, stores `"A"`
and `"C"` are unaffected. -/
theorem single_store_failure_isolated_witness :
    (find_stores_within_radius envFail
        ([("A", "dA")] ++ ("B", "dB") :: [("C", "dC")]) "loc" 5).1 =
      (find_stores_within_radius envFail
        ([("A", "dA")] ++ [("C", "dC")]) "loc" 5).1 ∧
    ("Error searching for " ++ "B" ++ ": " ++ "boom") ∈
      (find_stores_within_radius envFail
        ([("A", "dA")] ++ ("B", "dB") :: [("C", "dC")]) "loc" 5).2 ∧
    (find_stores_within_radius_concurrent envFail
        ([("C", "dC")] ++ ("B", "dB") :: [("A", "dA")]) "loc" 5).1 =
      (find_stores_within_radius_concurrent envFail
        ([("C", "dC")] ++ [("A", "dA")]) "loc" 5).1 ∧
    ("Error searching for " ++ "B" ++ ": " ++ "boom") ∈
      (find_stores_within_radius_concurrent envFail
        ([("C", "dC")] ++ ("B", "dB") :: [("A", "dA")]) "loc" 5).2 :=
  single_store_failure_isolated envFail [("A", "dA")] [("C", "dC")]
    [("C", "dC")] [("A", "dA")] "B" "dB" "boom" "loc" 5 ((0 : ℚ), (0 : ℚ)) []
    rfl (by with_unfolding_all rfl)

end BirthdayDeals

namespace BirthdayDeals

/-! ### C7 -/

theorem lookupDeal_map_update (m : List (String × String)) (k v s : String) :
    lookupDeal (m.map fun p => if p.1 = k then (p.1, v) else p) s =
      if s = k then (if k ∈ m.map Prod.fst then some v else none)
      else lookupDeal m s := by
  induction m with
  | nil => simp [lookupDeal]
  | cons p rest ih =>
    obtain ⟨k', v'⟩ := p
    simp only [List.map_cons]
    by_cases hk : k' = k
    · subst hk
      rw [if_pos rfl, lookupDeal]
      by_cases hs : s = k'
      · subst hs
        rw [if_pos rfl, if_pos rfl]
        simp
      · rw [if_neg (Ne.symm hs), ih, if_neg hs, if_neg hs, lookupDeal,
          if_neg (Ne.symm hs)]
    · rw [if_neg hk, lookupDeal]
      by_cases hs : s = k'
      · subst hs
        rw [if_pos rfl, if_neg hk, lookupDeal, if_pos rfl]
      · rw [if_neg (Ne.symm hs), ih]
        by_cases hsk : s = k
        · rw [if_pos hsk, if_pos hsk]
          by_cases hmem : k ∈ List.map Prod.fst rest
          · rw [if_pos hmem, if_pos (List.mem_cons_of_mem k' hmem)]
          · rw [if_neg hmem, if_neg (fun hc => (List.mem_cons.mp hc).elim
              (fun he => (Ne.symm hk) he) hmem)]
        · rw [if_neg hsk, if_neg hsk, lookupDeal, if_neg (Ne.symm hs)]

theorem lookupDeal_append (m₁ m₂ : List (String × String)) (s : String) :
    lookupDeal (m₁ ++ m₂) s =
      match lookupDeal m₁ s with
      | some v => some v
      | none => lookupDeal m₂ s := by
  induction m₁ with
  | nil => simp [lookupDeal]
  | cons p rest ih =>
    obtain ⟨k, v⟩ := p
    by_cases h : k = s <;> simp [lookupDeal, h, ih]

theorem lookupDeal_eq_none {m : List (String × String)} {k : String}
    (h : k ∉ m.map Prod.fst) : lookupDeal m k = none := by
  induction m with
  | nil => rfl
  | cons p rest ih =>
    obtain ⟨k', v'⟩ := p
    rw [List.map_cons, List.mem_cons] at h
    push_neg at h
    rw [lookupDeal, if_neg (fun he => h.1 he.symm)]
    exact ih h.2

theorem lookupDeal_dict_insert (m : List (String × String)) (k v s : String) :
    lookupDeal (dict_insert m k v) s =
      if s = k then some v else lookupDeal m s := by
  unfold dict_insert
  by_cases hm : k ∈ m.map Prod.fst
  · rw [if_pos hm, lookupDeal_map_update]
    by_cases hs : s = k
    · rw [if_pos hs, if_pos hs, if_pos hm]
    · rw [if_neg hs, if_neg hs]
  · rw [if_neg hm, lookupDeal_append]
    by_cases hs : s = k
    · subst hs
      rw [lookupDeal_eq_none hm]
      simp [lookupDeal]
    · cases h : lookupDeal m s
      · simp only [lookupDeal]
        rw [if_neg (Ne.symm hs), if_neg hs]
      · rw [if_neg hs]

theorem load_deals_data_concat (rows : List Row) (r : Row) :
    load_deals_data (rows ++ [r]) =
      dict_insert (load_deals_data rows) r.store.trim r.deal.trim := by
  simp [load_deals_data, List.foldl_append]

theorem mem_dict_insert {p : String × String} {m : List (String × String)}
    {k v : String} (h : p ∈ dict_insert m k v) : p ∈ m ∨ p = (k, v) := by
  unfold dict_insert at h
  by_cases hm : k ∈ m.map Prod.fst
  · rw [if_pos hm, List.mem_map] at h
    obtain ⟨q, hq, he⟩ := h
    by_cases hk : q.1 = k
    · right; rw [← he, if_pos hk, hk]
    · left; rw [← he, if_neg hk]; exact hq
  · rw [if_neg hm, List.mem_append] at h
    rcases h with h | h
    · exact Or.inl h
    · exact Or.inr (List.mem_singleton.mp h)

theorem mem_load_deals_aux {p : String × String} :
    ∀ (rows : List Row) (init : List (String × String)),
    p ∈ rows.foldl (fun m r => dict_insert m r.store.trim r.deal.trim) init →
    p ∈ init ∨ ∃ row ∈ rows, p = (row.store.trim, row.deal.trim) := by
  intro rows
  induction rows with
  | nil => intro init h; exact Or.inl h
  | cons r rest ih =>
    intro init h
    rw [List.foldl_cons] at h
    rcases ih (dict_insert init r.store.trim r.deal.trim) h with h' | h'
    · rcases mem_dict_insert h' with h'' | h''
      · exact Or.inl h''
      · exact Or.inr ⟨r, List.mem_cons_self r rest, h''⟩
    · obtain ⟨row, hrow, he⟩ := h'
      exact Or.inr ⟨row, List.mem_cons_of_mem r hrow, he⟩

/-- C7: the loaded catalog maps each trimmed store name to the trimmed
deal of the **last** row carrying that store name, and every entry of
the catalog is the trimmed pair of some row. -/
theorem load_deals_trimmed_last_row_wins (rows : List Row) (s : String) :
    lookupDeal (load_deals_data rows) s =
      ((rows.filter fun row => row.store.trim == s).getLast?).map
        (fun row => row.deal.trim) ∧
    ∀ p ∈ load_deals_data rows,
      ∃ row ∈ rows, p = (row.store.trim, row.deal.trim) := by
  constructor
  · induction rows using List.reverseRecOn with
    | nil => simp [load_deals_data, lookupDeal]
    | append_singleton rows r ih =>
      rw [load_deals_data_concat, lookupDeal_dict_insert, List.filter_append]
      by_cases hs : r.store.trim = s
      · rw [if_pos hs.symm]
        have : (List.filter (fun row => row.store.trim == s) [r]) = [r] := by
          simp [List.filter_singleton, hs]
        rw [this, List.getLast?_concat]
        rfl
      · rw [if_neg (fun h => hs h.symm)]
        have : (List.filter (fun row => row.store.trim == s) [r]) = [] := by
          simp [List.filter_singleton, hs]
        rw [this, List.append_nil]
        exact ih
  · intro p hp
    rcases mem_load_deals_aux rows [] hp with h | h
    · simp at h
    · exact h

/-- The rows of a catalog file with whitespace and a duplicate store. -/
def rowsW : List Row := [⟨" A ", " first "⟩, ⟨"A", "second"⟩, ⟨"B", "dB"⟩]

/-- Witness for C7 at a concrete input: the entry `("A", "second")` of
the loaded catalog comes from a trimmed row. -/
theorem load_deals_trimmed_last_row_wins_witness :
    ∃ row ∈ rowsW,
      (("A", "second") : String × String) = (row.store.trim, row.deal.trim) :=
  (load_deals_trimmed_last_row_wins rowsW "A").2 ("A", "second")
    (by with_unfolding_all decide)

end BirthdayDeals

namespace BirthdayDeals

/-! ### C8 -/

theorem runBatch_fst_eq_flatten (env : Env) (origin : Coords) (rm r : ℚ) :
    ∀ entries : List (String × String),
    (runBatch env origin rm r entries).1 =
      (entries.map fun e =>
        (search_single_store env e.1 e.2 origin rm r).1).flatten := by
  intro entries
  induction entries with
  | nil => rfl
  | cons e rest ih =>
    obtain ⟨s, d⟩ := e
    simp [runBatch, ih]

theorem perm_flatten {α : Type} {l₁ l₂ : List (List α)} (h : l₁.Perm l₂) :
    l₁.flatten.Perm l₂.flatten := by
  induction h with
  | nil => exact List.Perm.refl _
  | cons x _ ih => simpa [List.flatten_cons] using ih.append_left x
  | swap x y l =>
    simp only [List.flatten_cons, ← List.append_assoc]
    exact List.perm_append_comm.append_right _
  | trans _ _ ih₁ ih₂ => exact ih₁.trans ih₂

/-- C8: with the same environment, catalog and radius, the concurrent
method (whatever its task-completion order) and the sequential method
return the same multiset of Match records. -/
theorem concurrent_seq_same_results (env : Env)
    (catalog completion_order : List (String × String)) (location : String)
    (r : ℚ) (hperm : completion_order.Perm catalog) :
    ((find_stores_within_radius_concurrent env completion_order location r).1).Perm
      ((find_stores_within_radius env catalog location r).1) := by
  cases hg : env.geocode location with
  | error e =>
    unfold find_stores_within_radius find_stores_within_radius_concurrent
    rw [hg]
  | ok l =>
    cases l with
    | nil =>
      unfold find_stores_within_radius find_stores_within_radius_concurrent
      rw [hg]
    | cons origin rest =>
      rw [find_conc_eq_of_geocode_ok env completion_order location r origin
          rest hg,
        find_seq_eq_of_geocode_ok env catalog location r origin rest hg]
      have h1 : ((runBatch env origin (milesToMeters r) r
          completion_order).1).Perm
          ((runBatch env origin (milesToMeters r) r catalog).1) := by
        rw [runBatch_fst_eq_flatten, runBatch_fst_eq_flatten]
        exact perm_flatten (hperm.map _)
      exact ((List.perm_insertionSort distLE _).trans h1).trans
        (List.perm_insertionSort distLE _).symm

/-- Witness for C8 at a concrete input: completion order reversed. -/
theorem concurrent_seq_same_results_witness :
    ((find_stores_within_radius_concurrent envW [("B", "dB"), ("A", "dA")]
        "loc" 5).1).Perm
      ((find_stores_within_radius envW [("A", "dA"), ("B", "dB")] "loc" 5).1) :=
  concurrent_seq_same_results envW [("A", "dA"), ("B", "dB")]
    [("B", "dB"), ("A", "dA")] "loc" 5 (by with_unfolding_all decide)

/-! ### C3 -/

theorem store_name_of_mem_search {env : Env} {s d : String} {origin : Coords}
    {rm r : ℚ} {m : Match}
    (h : m ∈ (search_single_store env s d origin rm r).1) :
    m.store_name = s := by
  obtain ⟨results, _, hscan⟩ := mem_search_single_store h
  obtain ⟨p, _, _, heq⟩ := mem_scanCandidates hscan
  rw [heq]
  rfl

theorem store_name_mem_keys {env : Env} {origin : Coords} {rm r : ℚ}
    {entries : List (String × String)} {m : Match}
    (h : m ∈ (runBatch env origin rm r entries).1) :
    m.store_name ∈ entries.map Prod.fst := by
  obtain ⟨s, d, hmem, hm⟩ := mem_runBatch h
  rw [store_name_of_mem_search hm]
  exact List.mem_map_of_mem Prod.fst hmem

theorem search_single_store_length_le (env : Env) (s d : String)
    (origin : Coords) (rm r : ℚ) :
    (search_single_store env s d origin rm r).1.length ≤ 1 := by
  unfold search_single_store
  cases env.places s origin rm with
  | error e => simp
  | ok results => exact scanCandidates_length_le results

theorem nodup_of_length_le_one {α : Type} {l : List α} (h : l.length ≤ 1) :
    l.Nodup := by
  cases l with
  | nil => exact List.nodup_nil
  | cons x xs =>
    cases xs with
    | nil => simp
    | cons y ys => simp at h

theorem runBatch_length_le (env : Env) (origin : Coords) (rm r : ℚ) :
    ∀ entries : List (String × String),
    (runBatch env origin rm r entries).1.length ≤ entries.length := by
  intro entries
  induction entries with
  | nil => simp [runBatch]
  | cons e rest ih =>
    obtain ⟨s, d⟩ := e
    rw [runBatch]
    simp only [List.length_append, List.length_cons]
    have h1 := search_single_store_length_le env s d origin rm r
    omega

theorem runBatch_names_nodup (env : Env) (origin : Coords) (rm r : ℚ) :
    ∀ entries : List (String × String),
    (entries.map Prod.fst).Nodup →
    ((runBatch env origin rm r entries).1.map Match.store_name).Nodup := by
  intro entries
  induction entries with
  | nil => intro _; simp [runBatch]
  | cons e rest ih =>
    intro hnd
    obtain ⟨s, d⟩ := e
    rw [List.map_cons, List.nodup_cons] at hnd
    rw [runBatch]
    simp only [List.map_append]
    rw [List.nodup_append]
    refine ⟨?_, ih hnd.2, ?_⟩
    · exact nodup_of_length_le_one (by
        rw [List.length_map]
        exact search_single_store_length_le env s d origin rm r)
    · intro a ha hb
      rw [List.mem_map] at ha hb
      obtain ⟨m₁, hm₁, he₁⟩ := ha
      obtain ⟨m₂, hm₂, he₂⟩ := hb
      have h₁ : a = s := by rw [← he₁, store_name_of_mem_search hm₁]
      have h₂ : a ∈ rest.map Prod.fst := by
        rw [← he₂]
        exact store_name_mem_keys hm₂
      rw [h₁] at h₂
      exact hnd.1 h₂

end BirthdayDeals

namespace BirthdayDeals

/-- C3: in both execution modes, the result list has pairwise-distinct
store names (at most one Match per store), so its length is at most the
catalog's size. -/
theorem at_most_one_match_per_store (env : Env)
    (catalog completion_order : List (String × String)) (location : String)
    (r : ℚ) (hnd : (catalog.map Prod.fst).Nodup)
    (hperm : completion_order.Perm catalog) :
    (((find_stores_within_radius env catalog location r).1.map
        Match.store_name).Nodup ∧
      (find_stores_within_radius env catalog location r).1.length ≤
        catalog.length) ∧
    (((find_stores_within_radius_concurrent env completion_order location
        r).1.map Match.store_name).Nodup ∧
      (find_stores_within_radius_concurrent env completion_order location
        r).1.length ≤ catalog.length) := by
  cases hg : env.geocode location with
  | error e =>
    unfold find_stores_within_radius find_stores_within_radius_concurrent
    rw [hg]
    simp
  | ok l =>
    cases l with
    | nil =>
      unfold find_stores_within_radius find_stores_within_radius_concurrent
      rw [hg]
      simp
    | cons origin rest =>
      rw [find_seq_eq_of_geocode_ok env catalog location r origin rest hg,
        find_conc_eq_of_geocode_ok env completion_order location r origin
          rest hg]
      have hsort : ∀ l : List Match, (sortByDist l).Perm l := fun l =>
        List.perm_insertionSort distLE l
      refine ⟨⟨?_, ?_⟩, ⟨?_, ?_⟩⟩
      · exact (((hsort _).map Match.store_name).nodup_iff).mpr
          (runBatch_names_nodup env origin (milesToMeters r) r catalog hnd)
      · rw [(hsort _).length_eq]
        exact runBatch_length_le env origin (milesToMeters r) r catalog
      · exact (((hsort _).map Match.store_name).nodup_iff).mpr
          (runBatch_names_nodup env origin (milesToMeters r) r
            completion_order (((hperm.map Prod.fst).nodup_iff).mpr hnd))
      · rw [(hsort _).length_eq, ← hperm.length_eq]
        exact runBatch_length_le env origin (milesToMeters r) r
          completion_order

/-- Witness for C3 at a concrete input. -/
theorem at_most_one_match_per_store_witness :
    (((find_stores_within_radius envW [("A", "dA"), ("B", "dB")] "loc"
        5).1.map Match.store_name).Nodup ∧
      (find_stores_within_radius envW [("A", "dA"), ("B", "dB")] "loc"
        5).1.length ≤ ([("A", "dA"), ("B", "dB")] : List (String × String)).length) ∧
    (((find_stores_within_radius_concurrent envW [("B", "dB"), ("A", "dA")]
        "loc" 5).1.map Match.store_name).Nodup ∧
      (find_stores_within_radius_concurrent envW [("B", "dB"), ("A", "dA")]
        "loc" 5).1.length ≤ ([("A", "dA"), ("B", "dB")] : List (String × String)).length) :=
  at_most_one_match_per_store envW [("A", "dA"), ("B", "dB")]
    [("B", "dB"), ("A", "dA")] "loc" 5 (by with_unfolding_all decide)
    (by with_unfolding_all decide)

end BirthdayDeals

namespace BirthdayDeals

/-! ### C2 -/

/-- Ties broken by the iteration order of `keys`: whenever two result
entries have equal distance, the earlier one's store name occurs earlier
in `keys`. -/
def tieBy (keys : List String) (a b : Match) : Prop :=
  a.distance_miles = b.distance_miles →
    keys.indexOf a.store_name < keys.indexOf b.store_name

instance (keys : List String) : DecidableRel (tieBy keys) := fun a b =>
  inferInstanceAs (Decidable (a.distance_miles = b.distance_miles →
    keys.indexOf a.store_name < keys.indexOf b.store_name))

/-- Strict lexicographic order on (distance, position). -/
def lexBelow (pos : Match → ℕ) (a b : Match) : Prop :=
  a.distance_miles < b.distance_miles ∨
    (a.distance_miles = b.distance_miles ∧ pos a < pos b)

theorem pairwise_of_length_le_one {α : Type} {R : α → α → Prop} {l : List α}
    (h : l.length ≤ 1) : List.Pairwise R l := by
  cases l with
  | nil => exact List.Pairwise.nil
  | cons x xs =>
    cases xs with
    | nil => simp
    | cons y ys => simp at h

theorem pairwise_lex_orderedInsert (pos : Match → ℕ) (x : Match) :
    ∀ s : List Match, List.Pairwise (lexBelow pos) s →
    (∀ y ∈ s, pos x < pos y) →
    List.Pairwise (lexBelow pos) (List.orderedInsert distLE x s) := by
  intro s
  induction s with
  | nil => intro _ _; simp
  | cons y ys ih =>
    intro hs hpos
    rw [List.orderedInsert]
    by_cases hxy : distLE x y
    · rw [if_pos hxy]
      rw [List.pairwise_cons]
      refine ⟨?_, hs⟩
      intro z hz
      have hdz : x.distance_miles ≤ z.distance_miles := by
        rcases List.mem_cons.mp hz with rfl | hz'
        · exact hxy
        · rcases (List.pairwise_cons.mp hs).1 z hz' with h | ⟨he, _⟩
          · exact le_trans hxy (le_of_lt h)
          · exact le_trans hxy (le_of_eq he)
      rcases lt_or_eq_of_le hdz with h | h
      · exact Or.inl h
      · exact Or.inr ⟨h, hpos z hz⟩
    · rw [if_neg hxy]
      rw [List.pairwise_cons]
      constructor
      · intro z hz
        rw [List.mem_orderedInsert] at hz
        rcases hz with rfl | hz'
        · exact Or.inl (lt_of_not_le hxy)
        · exact (List.pairwise_cons.mp hs).1 z hz'
      · exact ih (List.pairwise_cons.mp hs).2
          (fun y' hy' => hpos y' (List.mem_cons_of_mem y hy'))

/-- The stable insertion sort of a list whose secondary positions are
strictly increasing is sorted lexicographically by
(distance, position). -/
theorem pairwise_lex_insertionSort (pos : Match → ℕ) :
    ∀ l : List Match, List.Pairwise (fun a b => pos a < pos b) l →
    List.Pairwise (lexBelow pos) (sortByDist l) := by
  intro l
  induction l with
  | nil => intro _; simp [sortByDist]
  | cons x xs ih =>
    intro h
    rw [List.pairwise_cons] at h
    rw [sortByDist, List.insertionSort]
    apply pairwise_lex_orderedInsert pos x (List.insertionSort distLE xs)
    · exact ih h.2
    · intro y hy
      rw [List.mem_insertionSort] at hy
      exact h.1 y hy

/-- The pre-sort batch output has strictly increasing positions in the
key list of the entries it was run over. -/
theorem runBatch_pairwise_pos (env : Env) (origin : Coords) (rm r : ℚ) :
    ∀ entries : List (String × String), (entries.map Prod.fst).Nodup →
    List.Pairwise
      (fun a b => (entries.map Prod.fst).indexOf a.store_name <
        (entries.map Prod.fst).indexOf b.store_name)
      (runBatch env origin rm r entries).1 := by
  intro entries
  induction entries with
  | nil => intro _; simp [runBatch]
  | cons e rest ih =>
    intro hnd
    obtain ⟨s, d⟩ := e
    simp only [List.map_cons] at hnd ⊢
    rw [List.nodup_cons] at hnd
    simp only [runBatch]
    rw [List.pairwise_append]
    refine ⟨?_, ?_, ?_⟩
    · exact pairwise_of_length_le_one
        (search_single_store_length_le env s d origin rm r)
    · refine List.Pairwise.imp_of_mem ?_ (ih hnd.2)
      intro a b ha hb hR
      have hna : a.store_name ∈ rest.map Prod.fst := store_name_mem_keys ha
      have hnb : b.store_name ∈ rest.map Prod.fst := store_name_mem_keys hb
      have hsa : s ≠ a.store_name := fun he => hnd.1 (he ▸ hna)
      have hsb : s ≠ b.store_name := fun he => hnd.1 (he ▸ hnb)
      rw [List.indexOf_cons_ne _ hsa, List.indexOf_cons_ne _ hsb]
      exact Nat.succ_lt_succ hR
    · intro a ha b hb
      have hna : a.store_name = s := store_name_of_mem_search ha
      have hnb : b.store_name ∈ rest.map Prod.fst := store_name_mem_keys hb
      have hsb : s ≠ b.store_name := fun he => hnd.1 (he ▸ hnb)
      rw [hna, List.indexOf_cons_self, List.indexOf_cons_ne _ hsb]
      exact Nat.succ_pos _

theorem pairwise_distLE_of_lex {pos : Match → ℕ} {l : List Match}
    (h : List.Pairwise (lexBelow pos) l) : List.Pairwise distLE l := by
  refine h.imp ?_
  intro a b hab
  rcases hab with h' | ⟨h', _⟩
  · exact le_of_lt h'
  · exact le_of_eq h'

theorem pairwise_tieBy_of_lex {keys : List String} {l : List Match}
    (h : List.Pairwise (lexBelow fun m => keys.indexOf m.store_name) l) :
    List.Pairwise (tieBy keys) l := by
  refine h.imp ?_
  intro a b hab hd
  rcases hab with h' | ⟨_, h'⟩
  · rw [hd] at h'
    exact absurd h' (lt_irrefl _)
  · exact h'

/-- C2 (amended): in both execution modes the result list is sorted
ascending by the stored distance field; equal-distance ties keep the
catalog iteration order in the sequential method, but keep the
task-collection (completion) order in the concurrent method. -/
theorem result_sorted_stable (env : Env)
    (catalog completion_order : List (String × String)) (location : String)
    (r : ℚ) (hnd : (catalog.map Prod.fst).Nodup)
    (hperm : completion_order.Perm catalog) :
    (List.Pairwise distLE (find_stores_within_radius env catalog location r).1 ∧
      List.Pairwise (tieBy (catalog.map Prod.fst))
        (find_stores_within_radius env catalog location r).1) ∧
    (List.Pairwise distLE
        (find_stores_within_radius_concurrent env completion_order location
          r).1 ∧
      List.Pairwise (tieBy (completion_order.map Prod.fst))
        (find_stores_within_radius_concurrent env completion_order location
          r).1) := by
  cases hg : env.geocode location with
  | error e =>
    unfold find_stores_within_radius find_stores_within_radius_concurrent
    rw [hg]
    simp
  | ok l =>
    cases l with
    | nil =>
      unfold find_stores_within_radius find_stores_within_radius_concurrent
      rw [hg]
      simp
    | cons origin rest =>
      rw [find_seq_eq_of_geocode_ok env catalog location r origin rest hg,
        find_conc_eq_of_geocode_ok env completion_order location r origin
          rest hg]
      have hcat := pairwise_lex_insertionSort
        (fun m => (catalog.map Prod.fst).indexOf m.store_name) _
        (runBatch_pairwise_pos env origin (milesToMeters r) r catalog hnd)
      have hord := pairwise_lex_insertionSort
        (fun m => (completion_order.map Prod.fst).indexOf m.store_name) _
        (runBatch_pairwise_pos env origin (milesToMeters r) r completion_order
          (((hperm.map Prod.fst).nodup_iff).mpr hnd))
      exact ⟨⟨pairwise_distLE_of_lex hcat, pairwise_tieBy_of_lex hcat⟩,
        ⟨pairwise_distLE_of_lex hord, pairwise_tieBy_of_lex hord⟩⟩

/-- Witness for the amended C2 at a concrete input. -/
theorem result_sorted_stable_witness :
    (List.Pairwise distLE
        (find_stores_within_radius envW [("A", "dA"), ("B", "dB")] "loc"
          5).1 ∧
      List.Pairwise (tieBy (([("A", "dA"), ("B", "dB")] :
          List (String × String)).map Prod.fst))
        (find_stores_within_radius envW [("A", "dA"), ("B", "dB")] "loc"
          5).1) ∧
    (List.Pairwise distLE
        (find_stores_within_radius_concurrent envW [("B", "dB"), ("A", "dA")]
          "loc" 5).1 ∧
      List.Pairwise (tieBy (([("B", "dB"), ("A", "dA")] :
          List (String × String)).map Prod.fst))
        (find_stores_within_radius_concurrent envW [("B", "dB"), ("A", "dA")]
          "loc" 5).1) :=
  result_sorted_stable envW [("A", "dA"), ("B", "dB")]
    [("B", "dB"), ("A", "dA")] "loc" 5 (by with_unfolding_all decide)
    (by with_unfolding_all decide)

/-- Counterexample to C2 as stated: with catalog order A, B but
completion order B, A and equal distances, the concurrent result does
not preserve catalog order on ties. -/
theorem result_sorted_stable_counterexample :
    (([("B", "dB"), ("A", "dA")] : List (String × String)).Perm
      [("A", "dA"), ("B", "dB")]) ∧
    ¬ List.Pairwise
        (tieBy (([("A", "dA"), ("B", "dB")] :
          List (String × String)).map Prod.fst))
        (find_stores_within_radius_concurrent envW [("B", "dB"), ("A", "dA")]
          "loc" 5).1 := by
  constructor
  · with_unfolding_all decide
  · with_unfolding_all decide

end BirthdayDeals

namespace BirthdayDeals

/-! ### C9 -/

/-- A Match with a numeric rating but a sentinel rating count, as built
for a candidate that has `rating` but lacks `user_ratings_total`. -/
def matchNA : Match where
  store_name := "A"
  deal := "d"
  address := "addr"
  distance_miles := 1
  place_id := ""
  rating := RVal.num 4
  user_ratings_total := RVal.na

/-- Counterexample to C9 as stated: the presenter tests only the rating
field, so when the rating is numeric and the rating count is the
sentinel, the rating line is still emitted and prints the sentinel. -/
theorem rating_sentinel_printed_counterexample :
    matchNA.user_ratings_total = RVal.na ∧
    "   Rating: 4/5 (N/A reviews)" ∈ renderMatch 1 matchNA := by
  constructor
  · rfl
  · with_unfolding_all decide

/-- C9 (amended): the rating line is emitted iff the Match's rating
field is not the `'N/A'` sentinel; the rating-count field is not
consulted, and when the rating is present the line embeds whatever the
rating-count field renders to — including the sentinel itself. -/
theorem rating_line_iff_rating_present (i : ℕ) (m : Match) :
    ((renderMatch i m).length = 6 ↔ m.rating ≠ RVal.na) ∧
    ((renderMatch i m).length = 5 ↔ m.rating = RVal.na) ∧
    (m.rating ≠ RVal.na →
      ("   Rating: " ++ m.rating.render ++ "/5 (" ++
        m.user_ratings_total.render ++ " reviews)") ∈ renderMatch i m) := by
  by_cases h : m.rating = RVal.na
  · refine ⟨?_, ?_, ?_⟩
    · simp [renderMatch, h]
    · simp [renderMatch, h]
    · intro h'
      exact absurd h h'
  · refine ⟨?_, ?_, ?_⟩
    · simp [renderMatch, h]
    · simp [renderMatch, h]
    · intro _
      simp [renderMatch, h]

/-- Witness for the amended C9 at a concrete input: the rating line of
`matchNA` is emitted and embeds the rendered sentinel rating count. -/
theorem rating_line_iff_rating_present_witness :
    ("   Rating: " ++ (RVal.num 4).render ++ "/5 (" ++
      RVal.na.render ++ " reviews)") ∈ renderMatch 1 matchNA :=
  (rating_line_iff_rating_present 1 matchNA).2.2 (by decide)

end BirthdayDeals
